import Mathlib

/-!
Shallow embedding of the Rant runtime (VM, resolver, call stack) used to
check the natural-language specification against the source.

Source files embedded here: `src/runtime.rs`, `src/runtime/resolver.rs`,
`src/runtime/stack.rs`.  Types that live in modules not present in the
source tree (`lang.rs` value model, the RNG, the output writer) are
modelled from the spec and marked as such in their doc comments.
-/

namespace Rant

/-- Modelled from the spec: the random number generator is out of scope and
is "specified only as a seeded stream of `usize` values".  We model it as a
stream of naturals together with a read position; `next_usize bound` reads
the next stream value modulo `bound` (a uniform draw in `[0, bound)`). -/
structure RantRng where
  stream : Nat → Nat
  pos : Nat

/-- Rust `RantRng::next_usize(bound)`: draw the next value in `[0, bound)`. -/
def RantRng.next_usize (rng : RantRng) (bound : Nat) : Nat × RantRng :=
  (rng.stream rng.pos % bound, { rng with pos := rng.pos + 1 })

/-- Rust `Varity` from `lang.rs` (not in the source tree; the four variants are
fixed by `parser.rs::parse_func_params` and the spec's varity list). -/
inductive Varity where
  | Required
  | Optional
  | VariadicStar
  | VariadicPlus
deriving DecidableEq, Repr

/-- Rust `Varity::is_variadic`. -/
def Varity.is_variadic : Varity → Bool
  | .VariadicStar | .VariadicPlus => true
  | _ => false

/-- A function parameter: name and varity (`lang.rs::Parameter`). -/
structure Parameter where
  name : String
  varity : Varity
deriving DecidableEq, Repr

/-- Rust `Parameter::is_required`: a parameter is required iff its varity is
`Required`. -/
def Parameter.is_required (p : Parameter) : Bool :=
  p.varity = Varity.Required

/-- The two bodies a function can have (`RantFunctionInterface`): a foreign
(native) callback or a user sequence.  The payloads are irrelevant to the
claims checked here and are abstracted away. -/
inductive RantFunctionInterface where
  | Foreign
  | User
deriving DecidableEq, Repr

mutual

/-- Modelled from the spec: the runtime value model of `value.rs` (not in
the source tree).  "A tagged union of: Integer (signed 64-bit), Float,
Boolean, String, List, Map, Function, Empty."  Floats are carried opaquely
(no claim inspects them); lists and maps carry their contents directly
(reference sharing is irrelevant to the claims checked here). -/
inductive RantValue where
  | Integer (n : Int)
  | Float (bits : Nat)
  | Boolean (b : Bool)
  | Str (s : String)
  | List (xs : List RantValue)
  | Map (pairs : List (String × RantValue))
  | Function (f : RantFunction)
  | Empty

/-- Rust `RantFunction` from `value.rs` (fields fixed by their uses in
`runtime.rs`): parameter list, body, captured variables, minimum argument
count and the index where the variadic parameter starts. -/
inductive RantFunction where
  | mk (params : List Parameter) (body : RantFunctionInterface)
       (captured_vars : List String) (min_arg_count : Nat)
       (vararg_start_index : Nat)

end

def RantFunction.params : RantFunction → List Parameter
  | .mk ps _ _ _ _ => ps

def RantFunction.body : RantFunction → RantFunctionInterface
  | .mk _ b _ _ _ => b

def RantFunction.captured_vars : RantFunction → List String
  | .mk _ _ cv _ _ => cv

def RantFunction.min_arg_count : RantFunction → Nat
  | .mk _ _ _ m _ => m

def RantFunction.vararg_start_index : RantFunction → Nat
  | .mk _ _ _ _ v => v

/-- Modelled from the spec: `RantFunction::is_variadic` (in `value.rs`,
not in the source tree).  Per the spec a function stores "the index at
which the variadic parameter begins (or length of params if none)", so a
function is variadic iff that index lies inside the parameter list. -/
def RantFunction.is_variadic (f : RantFunction) : Bool :=
  f.vararg_start_index < f.params.length

/-- Rust `RantFunction::is_native`: the body is a foreign callback. -/
def RantFunction.is_native (f : RantFunction) : Bool :=
  f.body = RantFunctionInterface.Foreign

/-- Modelled from the spec: `RantValue::is_empty` (in `value.rs`, not in
the source tree): a value is empty iff it is the `Empty` variant. -/
def RantValue.is_empty : RantValue → Bool
  | .Empty => true
  | _ => false

/-- Modelled from the spec: `RantValue::is_callable` (in `value.rs`, not
in the source tree): a value is callable iff it is a `Function`. -/
def RantValue.is_callable : RantValue → Bool
  | .Function _ => true
  | _ => false

/-- Rust `PrintFlag` from `lang.rs` (not in the source tree; the spec lists the
three variants `None`, `Hint`, `Sink`). -/
inductive PrintFlag where
  | None
  | Hint
  | Sink
deriving DecidableEq, Repr

/-- Modelled from the spec: `PrintFlag::prioritize(outer, inner)` keeps the
inner (more specific) flag when it is explicit and otherwise falls back to
the outer one. -/
def PrintFlag.prioritize (outer inner : PrintFlag) : PrintFlag :=
  match inner with
  | .None => outer
  | _ => inner

/-- Rust `PrintFlag::is_sink`. -/
def PrintFlag.is_sink (f : PrintFlag) : Bool :=
  f = PrintFlag.Sink

/-- Rust `SelectorError` from `runtime/resolver.rs`. -/
inductive SelectorError where
  | ElementCountMismatch (expected found : Nat)
  | InvalidElementCount (n : Nat)
deriving DecidableEq, Repr

/-- Rust `SelectorMode` from `runtime/resolver.rs`. -/
inductive SelectorMode where
  | Random
  | One
  | Forward
  | ForwardClamp
  | Reverse
  | ReverseClamp
  | Deck
  | DeckLoop
  | DeckClamp
  | Ping
  | Pong
  | NoDouble
deriving DecidableEq, Repr

/-- Rust `Selector` state from `runtime/resolver.rs`: mode, current index,
element count (`0` while uninitialized), ping/pong parity and the jump
table used by the deck modes. -/
structure Selector where
  mode : SelectorMode
  index : Nat
  count : Nat
  parity : Bool
  jump_table : List Nat
deriving DecidableEq, Repr

/-- Rust `Selector::new`. -/
def Selector.new (mode : SelectorMode) : Selector :=
  { mode := mode, index := 0, count := 0, parity := false, jump_table := [] }

/-- Rust `Selector::is_initialized`. -/
def Selector.is_initialized (s : Selector) : Bool :=
  s.count > 0

/-- Rust `Vec::swap(i, j)` on the jump table.  The Rust call panics out of
bounds; `shuffle` only ever swaps in-bounds positions (`i < n` and
`rng.next_usize(n) < n` with the table of length `n`), so the fallback
branch is never reached from the embedded code. -/
def swapIdx (l : List Nat) (i j : Nat) : List Nat :=
  match l.get? i, l.get? j with
  | some a, some b => (l.set i b).set j a
  | _, _ => l

/-- Rust `Selector::shuffle`: populate the jump table with `0..n` if it is
empty, then run the source's Fisher-Yates pass (`for i in 0..n { swap(i,
rng.next_usize(n)) }`). -/
def Selector.shuffle (s : Selector) (rng : RantRng) : Selector × RantRng :=
  let n := s.count
  let table0 := if s.jump_table.isEmpty then List.range n else s.jump_table
  let fin := (List.range n).foldl
    (fun (acc : List Nat × RantRng) i =>
      let (j, r) := acc.2.next_usize n
      (swapIdx acc.1 i j, r))
    (table0, rng)
  ({ s with jump_table := fin.1 }, fin.2)

/-- Rust `Selector::init`. -/
def Selector.init (s : Selector) (rng : RantRng) (elem_count : Nat) :
    Except SelectorError (Selector × RantRng) :=
  if elem_count = 0 then
    .error (.InvalidElementCount 0)
  else
    let s := { s with count := elem_count }
    match s.mode with
    | .Random | .One =>
      let (i, rng) := rng.next_usize elem_count
      .ok ({ s with index := i }, rng)
    | .Forward | .ForwardClamp => .ok (s, rng)
    | .Reverse | .ReverseClamp => .ok ({ s with index := elem_count - 1 }, rng)
    | .Deck | .DeckLoop | .DeckClamp =>
      let (s, rng) := s.shuffle rng
      .ok (s, rng)
    | .Ping => .ok (s, rng)
    | .Pong => .ok ({ s with index := elem_count - 1 }, rng)
    | .NoDouble =>
      let (i, rng) := rng.next_usize elem_count
      .ok ({ s with index := i }, rng)

/-- The iteration half of `Selector::select` (everything after the
initialize-and-sanity-check block): return the current index (or a
jump-table entry for the deck modes) and advance the per-mode iteration
state. -/
def Selector.selectCore (s : Selector) (elem_count : Nat) (rng : RantRng) :
    Except SelectorError (Nat × Selector × RantRng) :=
  let cur := s.index
  match s.mode with
  | .Random =>
    let (i, rng) := rng.next_usize elem_count
    .ok (cur, { s with index := i }, rng)
  | .One => .ok (cur, s, rng)
  | .Forward => .ok (cur, { s with index := (cur + 1) % elem_count }, rng)
  | .ForwardClamp =>
    .ok (cur, { s with index := min (cur + 1) (elem_count - 1) }, rng)
  | .Reverse =>
    .ok (cur, { s with index := (if cur = 0 then elem_count else cur) - 1 }, rng)
  | .ReverseClamp => .ok (cur, { s with index := cur - 1 }, rng)
  | .Deck =>
    let jump_index := s.jump_table.getD cur 0
    if cur ≥ elem_count - 1 then
      let (s, rng) := s.shuffle rng
      .ok (jump_index, { s with index := 0 }, rng)
    else
      .ok (jump_index, { s with index := cur + 1 }, rng)
  | .DeckLoop =>
    .ok (s.jump_table.getD cur 0, { s with index := (cur + 1) % elem_count }, rng)
  | .DeckClamp =>
    .ok (s.jump_table.getD cur 0,
         { s with index := min (cur + 1) (elem_count - 1) }, rng)
  | .Ping =>
    let prev_parity := s.parity
    let parity :=
      if (prev_parity ∧ cur = 0) ∨ (¬prev_parity ∧ cur = elem_count - 1) then
        !prev_parity
      else prev_parity
    let idx := if parity then cur - 1 else (cur + 1) % elem_count
    .ok (cur, { s with parity := parity, index := idx }, rng)
  | .Pong =>
    let prev_parity := s.parity
    let parity :=
      if (¬prev_parity ∧ cur = 0) ∨ (prev_parity ∧ cur = elem_count - 1) then
        !prev_parity
      else prev_parity
    let idx := if parity then (cur + 1) % elem_count else cur - 1
    .ok (cur, { s with parity := parity, index := idx }, rng)
  | .NoDouble =>
    if elem_count > 1 then
      let (r, rng) := rng.next_usize (elem_count - 1)
      .ok (cur, { s with index := (cur + 1 + r) % elem_count }, rng)
    else
      .ok (cur, { s with index := 0 }, rng)

/-- Rust `Selector::select`: initialize on first use, reject a mismatched
element count, then iterate (`selectCore`). -/
def Selector.select (s : Selector) (elem_count : Nat) (rng : RantRng) :
    Except SelectorError (Nat × Selector × RantRng) := do
  let (s, rng) ←
    if !s.is_initialized then
      Selector.init s rng elem_count
    else if elem_count ≠ s.count then
      Except.error (.ElementCountMismatch s.count elem_count)
    else
      Except.ok (s, rng)
  s.selectCore elem_count rng

/-- Validity of an initialized selector for element count `n`: the stored
count is `n`, the iteration index is in range, and the jump table (when
populated) is a permutation of `0..n`. -/
def SelInv (n : Nat) (s : Selector) : Prop :=
  s.count = n ∧ s.index < n ∧
    (s.jump_table = [] ∨ s.jump_table.Perm (List.range n))

/-- Rust `Reps` from `runtime/resolver.rs`. -/
inductive Reps where
  | RepeatForever
  | All
  | Repeat (n : Nat)
  | Once
deriving DecidableEq, Repr

/-- Rust `Reps::is_infinite`. -/
def Reps.is_infinite : Reps → Bool
  | .RepeatForever => true
  | _ => false

/-- A block (`lang.rs::Block`, fields fixed by their uses in the runtime):
element sequences and a print flag.  The element (sequence) type is left
as a parameter `α`; the runtime treats elements opaquely. -/
structure Block (α : Type) where
  elements : List α
  flag : PrintFlag

/-- Rust `Reps::get_rep_count_for`. -/
def Reps.get_rep_count_for {α : Type} (r : Reps) (block : Block α) : Nat :=
  match r with
  | .RepeatForever => 0
  | .Once => 1
  | .All => block.elements.length
  | .Repeat n => n

/-- Rust `AttributeFrame` from `runtime/resolver.rs`.  The source stores the
selector behind `Rc<RefCell<..>>`; sharing is irrelevant to the claims
checked here, so the state is held by value. -/
structure AttributeFrame where
  condval : Option Bool
  prev_condval : Option Bool
  no_propagate_condval : Bool
  reps : Reps
  separator : RantValue
  selector : Option Selector

/-- Rust `AttributeFrame`'s `Default` impl. -/
def AttributeFrame.default : AttributeFrame :=
  { condval := none
    prev_condval := none
    no_propagate_condval := false
    reps := .Once
    separator := .Empty
    selector := none }

instance : Inhabited AttributeFrame := ⟨AttributeFrame.default⟩

/-- Rust `AttributeFrame::propagate`: a fresh default frame that receives the
given frame's condval unless propagation is suppressed. -/
def AttributeFrame.propagate (frame : AttributeFrame) : AttributeFrame :=
  { AttributeFrame.default with
      prev_condval :=
        if frame.no_propagate_condval then none else frame.condval }

/-- Rust `AttributeFrame::make_if`. -/
def AttributeFrame.make_if (f : AttributeFrame) (cond_val : Bool) : AttributeFrame :=
  { f with condval := some cond_val, no_propagate_condval := cond_val }

/-- Rust `AttributeFrame::make_else`. -/
def AttributeFrame.make_else (f : AttributeFrame) : AttributeFrame :=
  { f with
      condval := some ((f.prev_condval.map (fun b => !b)).getD false)
      no_propagate_condval := true }

/-- Rust `AttributeFrame::make_else_if`. -/
def AttributeFrame.make_else_if (f : AttributeFrame) (cond_val : Bool) : AttributeFrame :=
  let has_propagated_condval := f.prev_condval.isNone
  { f with
      condval := some ((f.prev_condval.map (fun b => !b && cond_val)).getD false)
      no_propagate_condval := cond_val || has_propagated_condval }

/-- Rust `BlockState` from `runtime/resolver.rs`. -/
structure BlockState (α : Type) where
  elements : List α
  force_stop : Bool
  flag : PrintFlag
  attrs : AttributeFrame
  cur_steps : Nat
  total_steps : Nat
  prev_step_separated : Bool

/-- Rust `BlockState::is_done`. -/
def BlockState.is_done {α : Type} (s : BlockState α) : Bool :=
  s.force_stop || !(s.attrs.condval.getD true)
    || (!s.attrs.reps.is_infinite && s.cur_steps ≥ s.total_steps)

/-- Rust `BlockAction` from `runtime/resolver.rs`. -/
inductive BlockAction (α : Type) where
  | Element (e : α)
  | Separator (v : RantValue)

/-- Rust `BlockState::next_element`: alternate elements and separators until
the block is done; elements are chosen by the attribute frame's selector,
or uniformly at random without one. -/
def BlockState.next_element {α : Type} [Inhabited α] (s : BlockState α)
    (rng : RantRng) :
    Except SelectorError (Option (BlockAction α) × BlockState α × RantRng) :=
  if !s.is_done then
    if s.cur_steps = 0 ∨ s.prev_step_separated then
      let s := { s with prev_step_separated := false, cur_steps := s.cur_steps + 1 }
      match s.attrs.selector with
      | none =>
        let (i, rng) := rng.next_usize s.elements.length
        .ok (some (.Element (s.elements.getD i default)), s, rng)
      | some sel =>
        match sel.select s.elements.length rng with
        | .error e => .error e
        | .ok (i, sel, rng) =>
          .ok (some (.Element (s.elements.getD i default)),
               { s with attrs := { s.attrs with selector := some sel } }, rng)
    else
      .ok (some (.Separator s.attrs.separator),
           { s with prev_step_separated := true }, rng)
  else
    .ok (none, s, rng)

/-- Rust `Resolver` from `runtime/resolver.rs`: base attribute frame, attribute
override stack and block stack (heads of the lists are the stack tops). -/
structure Resolver (α : Type) where
  base_attrs : AttributeFrame
  attr_override_stack : List AttributeFrame
  block_stack : List (BlockState α)

/-- Rust `Resolver::new` (the RNG handle is threaded separately). -/
def Resolver.new (α : Type) : Resolver α :=
  { base_attrs := AttributeFrame.default
    attr_override_stack := [AttributeFrame.default]
    block_stack := [] }

/-- Rust `Resolver::take_attrs`: replace the topmost attribute frame with its
propagation and return the old frame. -/
def Resolver.take_attrs {α : Type} (r : Resolver α) : AttributeFrame × Resolver α :=
  match r.attr_override_stack with
  | [] =>
    (r.base_attrs, { r with base_attrs := AttributeFrame.propagate r.base_attrs })
  | top :: rest =>
    (top, { r with attr_override_stack := AttributeFrame.propagate top :: rest })

/-- Rust `Resolver::push_block`: build a block state from the pending attribute
frame and push it onto the block stack. -/
def Resolver.push_block {α : Type} (r : Resolver α) (block : Block α)
    (flag : PrintFlag) : Resolver α :=
  let (attrs, r) := r.take_attrs
  let state : BlockState α :=
    { elements := block.elements
      flag := PrintFlag.prioritize block.flag flag
      cur_steps := 0
      total_steps := attrs.reps.get_rep_count_for block
      attrs := attrs
      prev_step_separated := false
      force_stop := false }
  { r with block_stack := state :: r.block_stack }

/-- Rust `RuntimeErrorType` from `runtime.rs` (error payloads dropped). -/
inductive RuntimeErrorKind where
  | StackOverflow
  | StackUnderflow
  | InvalidAccess
  | ArgumentMismatch
  | CannotInvokeValue
  | SelectorErrorKind (e : SelectorError)
deriving DecidableEq, Repr

/-- Result of `VM::push_block_frame` (`runtime.rs`): the sequence pushed
as the new frame, whether a `PrintLastOutput` intent was enqueued on the
current frame, and the RNG and resolver states after the call. -/
structure BlockFrameResult (α : Type) where
  elem : α
  print_intent : Bool
  rng : RantRng
  resolver : Resolver α

/-- Rust `VM::push_block_frame` (`runtime.rs` lines 663-671): pick a uniformly
random element of the block with the RNG, enqueue `PrintLastOutput` when
the block prints and printing is not overridden, and push the element's
frame.  The VM's resolver is not touched by this function; it is threaded
through to make that fact provable. -/
def VM.push_block_frame {α : Type} [Inhabited α] (rng : RantRng)
    (resolver : Resolver α) (block : Block α) (override_print : Bool)
    (flag : PrintFlag) : BlockFrameResult α :=
  let (idx, rng) := rng.next_usize block.elements.length
  let elem := block.elements.getD idx default
  let is_printing := !(PrintFlag.prioritize block.flag flag).is_sink
  { elem := elem
    print_intent := is_printing && !override_print
    rng := rng
    resolver := resolver }

/-- The `RST::Block` arm of the VM main loop (`runtime.rs` lines 330-333):
`self.push_block_frame(block, false, None, PrintFlag::None)`. -/
def VM.dispatchBlock {α : Type} [Inhabited α] (rng : RantRng)
    (resolver : Resolver α) (block : Block α) : BlockFrameResult α :=
  VM.push_block_frame rng resolver block false PrintFlag.None

/-- The element the resolver would emit for this block: push a block state
from the pending attribute frame and ask the new state for its first
action.  (This is what the spec claims block dispatch does.) -/
def resolverChosen {α : Type} [Inhabited α] (rng : RantRng)
    (res : Resolver α) (blk : Block α) : Option α :=
  let res := res.push_block blk PrintFlag.None
  match res.block_stack with
  | [] => none
  | st :: _ =>
    match st.next_element rng with
    | .ok (some (.Element e), _, _) => some e
    | _ => none

/-- The property claimed for block dispatch: a block state is pushed onto
the resolver's block stack and the element emitted next is the one chosen
by that block state. -/
def blockDispatchAgreesWithResolver {α : Type} [Inhabited α] (rng : RantRng)
    (res : Resolver α) (blk : Block α) : Prop :=
  (VM.dispatchBlock rng res blk).resolver.block_stack.length
      = res.block_stack.length + 1
    ∧ resolverChosen rng res blk = some (VM.dispatchBlock rng res blk).elem

/-- One step of the argument-evaluation phase of `Intent::Invoke`
(`runtime.rs` lines 168-174): while `eval_count < arg_exprs.len()`, the VM
pushes a frame for `arg_exprs[arg_exprs.len() - eval_count - 1]` and
re-queues the intent with `eval_count + 1`; once no arguments remain it
proceeds to pop the evaluated values and the function.  Returns the
expression whose frame is pushed together with the new `eval_count`, or
`none` when the call itself proceeds. -/
def invokeSchedule {α : Type} [Inhabited α] (arg_exprs : List α)
    (eval_count : Nat) : Option (α × Nat) :=
  if eval_count < arg_exprs.length then
    some (arg_exprs.getD (arg_exprs.length - eval_count - 1) default,
          eval_count + 1)
  else
    none

/-- Iterate `invokeSchedule` (with enough fuel) and collect the argument
expressions in the order their frames are pushed. -/
def invokeOrderAux {α : Type} [Inhabited α] (arg_exprs : List α) :
    Nat → Nat → List α
  | 0, _ => []
  | r + 1, c =>
    match invokeSchedule arg_exprs c with
    | none => []
    | some (e, c') => e :: invokeOrderAux arg_exprs r c'

/-- The order in which `Intent::Invoke` pushes argument-evaluation frames,
starting from `eval_count = 0`. -/
def invokeOrder {α : Type} [Inhabited α] (arg_exprs : List α) : List α :=
  invokeOrderAux arg_exprs arg_exprs.length 0

/-- The `args.next().unwrap_or(RantValue::Empty)` binding loop of the
`Intent::Invoke` handler: each parameter in order takes the next argument
value, and parameters beyond the arguments take `Empty`. -/
def bindParams : List Parameter → List RantValue → List (String × RantValue)
  | [], _ => []
  | p :: ps, [] => (p.name, RantValue.Empty) :: bindParams ps []
  | p :: ps, a :: as => (p.name, a) :: bindParams ps as

/-- What the call phase of `Intent::Invoke` does after validation: call a
native body directly with the argument list, or bind a user body's
parameters into a fresh locals map. -/
inductive InvokeOutcome where
  | NativeCall (args : List RantValue)
  | UserCall (locals : List (String × RantValue))

/-- How the call phase of `Intent::Invoke` can end: with a runtime error
(raised through the `runtime_error!` macro), with a host-level panic (the
source aborts outside its own error taxonomy), or with a call outcome. -/
inductive InvokeResult where
  | Err (e : RuntimeErrorKind)
  | Panic
  | Ok (outcome : InvokeOutcome)

/-- Rust `args.drain(0..k).collect()` followed by collecting the remainder
into a single list value (`runtime.rs` lines 200-203).  `Vec::drain`
panics when the range end `k` exceeds the vector's length, so the
condensation is `none` (a panic) when `k > args.len()` and otherwise
yields the first `k` arguments followed by one list of the rest. -/
def drainCondense (args : List RantValue) (k : Nat) : Option (List RantValue) :=
  if k ≤ args.length then
    some (args.take k ++ [RantValue.List (args.drop k)])
  else
    none

/-- The call phase of `Intent::Invoke` (`runtime.rs` lines 181-232), given
the function and the evaluated arguments in positional order: validate the
argument count against the signature, condense the variadic tail of a
non-native variadic call into a single list argument (which panics in
`Vec::drain` when fewer than `vararg_start_index` arguments were supplied,
reachable when optional parameters precede the variadic one), and bind
parameters. -/
def invokeCall (func : RantFunction) (args : List RantValue) : InvokeResult :=
  let argc := args.length
  if func.is_variadic then
    if argc < func.min_arg_count then
      .Err .ArgumentMismatch
    else
      match
        (if !func.is_native then
          drainCondense args func.vararg_start_index
        else
          some args) with
      | none => .Panic
      | some args =>
        match func.body with
        | .Foreign => .Ok (.NativeCall args)
        | .User => .Ok (.UserCall (bindParams func.params args))
  else
    if argc < func.min_arg_count ∨ argc > func.params.length then
      .Err .ArgumentMismatch
    else
      match func.body with
      | .Foreign => .Ok (.NativeCall args)
      | .User => .Ok (.UserCall (bindParams func.params args))

abbrev MAX_STACK_SIZE : Nat := 20000

/-- Rust `VM::push_val` (`runtime.rs`): push onto the value stack unless that
would exceed `MAX_STACK_SIZE`; on overflow the stack is returned unchanged
together with the error.  Stack tops are list heads. -/
def VM.push_val (stack : List RantValue) (v : RantValue) :
    List RantValue × Option RuntimeErrorKind :=
  if stack.length < MAX_STACK_SIZE then
    (v :: stack, none)
  else
    (stack, some .StackOverflow)

/-- Rust `VM::pop_val` (`runtime.rs`): pop the value stack, underflowing when
it is empty. -/
def VM.pop_val (stack : List RantValue) :
    Except RuntimeErrorKind (RantValue × List RantValue) :=
  match stack with
  | [] => .error .StackUnderflow
  | v :: rest => .ok (v, rest)

/-- Rust `VM::push_frame` (`runtime.rs`): push onto the call stack unless its
length has reached `MAX_STACK_SIZE`; on overflow the stack is returned
unchanged together with the error.  Frame contents are irrelevant here and
are abstracted by `φ`. -/
def VM.push_frame {φ : Type} (frames : List φ) (frame : φ) :
    List φ × Option RuntimeErrorKind :=
  if frames.length ≥ MAX_STACK_SIZE then
    (frames, some .StackOverflow)
  else
    (frame :: frames, none)

/-- Rust `VM::pop_frame` (`runtime.rs`): pop the call stack, underflowing when
it is empty. -/
def VM.pop_frame {φ : Type} (frames : List φ) :
    Except RuntimeErrorKind (φ × List φ) :=
  match frames with
  | [] => .error .StackUnderflow
  | f :: rest => .ok (f, rest)

/-- The locals of the call stack (`quickscope::ScopeMap`), modelled as the
lexical layers of bindings: the head layer is the innermost scope, and
within a layer the head binding is the newest definition. -/
structure ScopeLayers where
  layers : List (List (String × RantValue))

/-- Rust `ScopeMap::get_all(id)`: every binding of `id`, innermost/newest
first. -/
def ScopeLayers.get_all (sc : ScopeLayers) (id : String) : List RantValue :=
  (sc.layers.map (fun layer =>
    layer.filterMap (fun kv => if kv.1 = id then some kv.2 else none))).flatten

/-- Rust `ScopeMap::get(id)`: the innermost binding of `id`. -/
def ScopeLayers.get (sc : ScopeLayers) (id : String) : Option RantValue :=
  (sc.get_all id).head?

/-- Rust `AccessPathKind` from `lang.rs` (variants fixed by their uses in
`runtime/stack.rs` and the spec). -/
inductive AccessPathKind where
  | Local
  | Descope (n : Nat)
  | ExplicitGlobal

/-- The engine's globals as seen by `runtime/stack.rs` (`context.get_global`
and `context.get_global_var`): a keyed table of values. -/
structure Globals where
  entries : List (String × RantValue)

/-- Rust `Rant::get_global_var(id)` (and `get_global`, which only differs by
cloning). -/
def Globals.get_global_var (g : Globals) (id : String) : Option RantValue :=
  (g.entries.find? (fun kv => kv.1 = id)).map (fun kv => kv.2)

/-- Rust `CallStack::get_var_value` (`runtime/stack.rs` lines 132-183).  With
`prefer_function = true` and a local (or descoped) access it performs the
trickle-down lookup of the `trickle_down_func_lookup!` macro: if the
topmost binding is not callable, scan the remaining bindings for a
callable one, then check the globals for a callable one, and fall back to
the topmost binding; without `prefer_function` it returns the innermost
binding.  In either case an unbound name falls through to the globals, and
a name bound nowhere is an `InvalidAccess` error. -/
def CallStack.get_var_value (sc : ScopeLayers) (context : Globals)
    (id : String) (access : AccessPathKind) (prefer_function : Bool) :
    Except RuntimeErrorKind RantValue :=
  let fallthrough : Except RuntimeErrorKind RantValue :=
    match context.get_global_var id with
    | some val => .ok val
    | none => .error .InvalidAccess
  let trickle (defs : List RantValue) : Except RuntimeErrorKind RantValue :=
    match defs with
    | [] => fallthrough
    | var :: rest =>
      if var.is_callable then .ok var
      else
        match rest.find? (fun v => v.is_callable) with
        | some func_var => .ok func_var
        | none =>
          match (context.get_global_var id).filter (fun v => v.is_callable) with
          | some func_var => .ok func_var
          | none => .ok var
  match access with
  | .Local =>
    if prefer_function then
      trickle (sc.get_all id)
    else
      match sc.get id with
      | some var => .ok var
      | none => fallthrough
  | .Descope n =>
    if prefer_function then
      trickle (ScopeLayers.get_all ⟨sc.layers.drop n⟩ id)
    else
      match ScopeLayers.get ⟨sc.layers.drop n⟩ id with
      | some var => .ok var
      | none => fallthrough
  | .ExplicitGlobal => fallthrough

/-- Rust `FunctionDef` node data used by the `RST::FuncDef` arm (`lang.rs`,
fields fixed by `runtime.rs` lines 387-416; the body sequence and target
path are irrelevant to the claims here). -/
structure FunctionDef where
  params : List Parameter
  capture_vars : List String

/-- Rust `ClosureExpr` node data used by the `RST::Closure` arm. -/
structure ClosureExpr where
  params : List Parameter
  capture_vars : List String

/-- The `RantFunction` value synthesized by the `RST::FuncDef` arm of the
VM main loop (`runtime.rs` lines 395-404): `captured_vars` is
`Default::default()` (the source's own TODO comment admits the capture set
is never populated), `min_arg_count` counts the leading required
parameters, and `vararg_start_index` is the first variadic parameter's
index or the parameter count. -/
def VM.makeFuncDefValue (fdef : FunctionDef) : RantFunction :=
  .mk fdef.params .User []
    ((fdef.params.takeWhile (fun p => p.is_required)).length)
    (fdef.params.findIdx (fun p => p.varity.is_variadic))

/-- The `RantFunction` value synthesized by the `RST::Closure` arm of the
VM main loop (`runtime.rs` lines 425-434); identical treatment of
`captured_vars`. -/
def VM.makeClosureValue (ce : ClosureExpr) : RantFunction :=
  .mk ce.params .User []
    ((ce.params.takeWhile (fun p => p.is_required)).length)
    (ce.params.findIdx (fun p => p.varity.is_variadic))

/-- A call-stack frame as needed by `StackFrame::write_value`
(`runtime/stack.rs`): the optional output writer, modelled from the spec
as the list of buffers written so far (`output.rs` is not in the source
tree; `write_buffer` appends a buffer). -/
structure StackFrame where
  output : Option (List RantValue)

/-- Rust `StackFrame::write_value` (`runtime/stack.rs` lines 455-463): an empty
value returns immediately; otherwise the value is appended to the frame's
output buffers, when the frame has an output. -/
def StackFrame.write_value (fr : StackFrame) (val : RantValue) : StackFrame :=
  if val.is_empty then fr
  else
    match fr.output with
    | some bufs => { fr with output := some (bufs ++ [val]) }
    | none => fr

/-- Run `Selector::select` `k` times with a fixed element count `n`,
collecting the returned indices. -/
def selectRun (n : Nat) : Nat → Selector → RantRng →
    Except SelectorError (List Nat × Selector × RantRng)
  | 0, s, rng => .ok ([], s, rng)
  | k + 1, s, rng =>
    match s.select n rng with
    | .error e => .error e
    | .ok (i, s, rng) =>
      match selectRun n k s rng with
      | .error e => .error e
      | .ok (outs, s', rng') => .ok (i :: outs, s', rng')

/-- The indices returned by `k` calls of `Selector::select` (empty on
error); used to state concrete selector scenarios. -/
def runOuts (n k : Nat) (s : Selector) (rng : RantRng) : List Nat :=
  match selectRun n k s rng with
  | .ok (outs, _, _) => outs
  | .error _ => []

/-- An RNG whose stream reads off the given list (and then zeros). -/
def rngOf (vals : List Nat) : RantRng :=
  { stream := fun p => vals.getD p 0, pos := 0 }

/-- What the spec claims of `make_else_if(x)`: condval becomes
`¬prior ∧ x` with `prior` defaulting to false, and the frame propagates
its condval iff the clause did not fire (condval not true). -/
def elseIfClaim (f : AttributeFrame) (x : Bool) : Prop :=
  (f.make_else_if x).condval = some (!(f.prev_condval.getD false) && x)
    ∧ ((f.make_else_if x).no_propagate_condval = false
        ↔ (f.make_else_if x).condval ≠ some true)

/-- A resolver whose pending attribute frame carries a `Reverse` selector
(used to exhibit that block dispatch ignores the resolver). -/
def reverseSelResolver : Resolver Nat :=
  { base_attrs := { AttributeFrame.default with selector := some (Selector.new .Reverse) }
    attr_override_stack := []
    block_stack := [] }

/-- A two-element block fixture. -/
def twoElemBlock : Block Nat := { elements := [10, 20], flag := .None }

/-- A user function with a single zero-or-more variadic parameter `x`
(min arg count 0, variadic start index 0). -/
def varStarFunc : RantFunction :=
  .mk [{ name := "x", varity := .VariadicStar }] .User [] 0 0

/-- A user function with a required parameter `a` and an optional
parameter `b` (min arg count 1, no variadic parameter). -/
def reqOptFunc : RantFunction :=
  .mk [{ name := "a", varity := .Required },
       { name := "b", varity := .Optional }] .User [] 1 2

/-- A user function with a required `a`, an optional `b` and a
zero-or-more variadic `c` (min arg count 1, variadic start index 2) — the
varity order the parser accepts that makes the variadic condensation
panic reachable. -/
def optBeforeVarFunc : RantFunction :=
  .mk [{ name := "a", varity := .Required },
       { name := "b", varity := .Optional },
       { name := "c", varity := .VariadicStar }] .User [] 1 2

/-! ## Theorems -/

/-- C9: for every function definition or closure node executed by the VM,
the synthesized `RantFunction`'s captured-variable environment is empty,
even when the parser computed a non-empty capture set for the node. -/
theorem funcdef_captures_never_populated (fdef : FunctionDef) (ce : ClosureExpr)
    (_h1 : fdef.capture_vars ≠ []) (_h2 : ce.capture_vars ≠ []) :
    (VM.makeFuncDefValue fdef).captured_vars = []
      ∧ (VM.makeClosureValue ce).captured_vars = [] :=
  ⟨rfl, rfl⟩

/-- Witness for C9 at a node whose parser-computed capture set is the
non-empty `["x"]`. -/
theorem funcdef_captures_never_populated_witness :
    (VM.makeFuncDefValue { params := [], capture_vars := ["x"] }).captured_vars = []
      ∧ (VM.makeClosureValue { params := [], capture_vars := ["y"] }).captured_vars = [] :=
  funcdef_captures_never_populated
    { params := [], capture_vars := ["x"] }
    { params := [], capture_vars := ["y"] }
    (by simp) (by simp)

/-- C10: writing an `Empty` value to a frame's output is a no-op (the
frame, including its output, is unchanged), while a non-empty value is
appended to the output buffers of a frame that has an output. -/
theorem write_value_empty_is_noop (fr : StackFrame) (bufs : List RantValue)
    (v : RantValue) (hv : v.is_empty = false) :
    fr.write_value RantValue.Empty = fr
      ∧ (StackFrame.mk (some bufs)).write_value v
          = StackFrame.mk (some (bufs ++ [v])) := by
  constructor
  · simp [StackFrame.write_value, RantValue.is_empty]
  · simp [StackFrame.write_value, hv]

/-- Witness for C10: a frame with one buffered value ignores `Empty` and
appends an integer. -/
theorem write_value_empty_is_noop_witness :
    (StackFrame.mk (some [RantValue.Integer 1])).write_value RantValue.Empty
        = StackFrame.mk (some [RantValue.Integer 1])
      ∧ (StackFrame.mk (some [])).write_value (RantValue.Integer 2)
          = StackFrame.mk (some ([] ++ [RantValue.Integer 2])) :=
  write_value_empty_is_noop (StackFrame.mk (some [RantValue.Integer 1])) []
    (RantValue.Integer 2) rfl

/-- C8: the value stack and the call stack never exceed depth 20000 — a
push on a stack within the limit stays within the limit, a push that would
exceed it returns `StackOverflow` and leaves the stack unchanged, and a
pop from an empty value or call stack returns `StackUnderflow`. -/
theorem stack_limits {φ : Type} (vs : List RantValue) (fs : List φ)
    (v : RantValue) (fr : φ)
    (h1 : vs.length ≤ MAX_STACK_SIZE) (h2 : fs.length ≤ MAX_STACK_SIZE) :
    (VM.push_val vs v).1.length ≤ MAX_STACK_SIZE
    ∧ (vs.length = MAX_STACK_SIZE →
        VM.push_val vs v = (vs, some RuntimeErrorKind.StackOverflow))
    ∧ VM.pop_val [] = .error RuntimeErrorKind.StackUnderflow
    ∧ (VM.push_frame fs fr).1.length ≤ MAX_STACK_SIZE
    ∧ (fs.length = MAX_STACK_SIZE →
        VM.push_frame fs fr = (fs, some RuntimeErrorKind.StackOverflow))
    ∧ VM.pop_frame ([] : List φ) = .error RuntimeErrorKind.StackUnderflow := by
  refine ⟨?_, ?_, rfl, ?_, ?_, rfl⟩
  · unfold VM.push_val
    split
    · next h => simpa using h
    · simpa using h1
  · intro h
    unfold VM.push_val
    simp [h]
  · unfold VM.push_frame
    split
    · simpa using h2
    · next h => simp at h; simpa using h
  · intro h
    unfold VM.push_frame
    simp [h]

/-- Witness for C8 with both stacks exactly at the 20000-deep limit. -/
theorem stack_limits_witness :
    (VM.push_val (List.replicate 20000 RantValue.Empty) RantValue.Empty).1.length
        ≤ MAX_STACK_SIZE
    ∧ ((List.replicate 20000 RantValue.Empty).length = MAX_STACK_SIZE →
        VM.push_val (List.replicate 20000 RantValue.Empty) RantValue.Empty
          = (List.replicate 20000 RantValue.Empty, some RuntimeErrorKind.StackOverflow))
    ∧ VM.pop_val [] = .error RuntimeErrorKind.StackUnderflow
    ∧ (VM.push_frame (List.replicate 20000 ()) ()).1.length ≤ MAX_STACK_SIZE
    ∧ ((List.replicate 20000 ()).length = MAX_STACK_SIZE →
        VM.push_frame (List.replicate 20000 ()) ()
          = (List.replicate 20000 (), some RuntimeErrorKind.StackOverflow))
    ∧ VM.pop_frame ([] : List Unit) = .error RuntimeErrorKind.StackUnderflow :=
  stack_limits (List.replicate 20000 RantValue.Empty) (List.replicate 20000 ())
    RantValue.Empty ()
    (by rw [List.length_replicate])
    (by rw [List.length_replicate])

/-- C7 counterexample: with no propagated prior condval and argument
`true`, `make_else_if` stores `Some(false)` — not `Some(¬prior ∧ x) =
Some(true)` with `prior` defaulting to false, as claimed. -/
theorem make_else_if_claim_counterexample :
    ¬ elseIfClaim AttributeFrame.default true := by
  unfold elseIfClaim
  decide

/-- C7 (amended): `make_else_if(x)` sets condval to `Some(¬prior ∧ x)`
when a prior condval was propagated and to `Some(false)` when none was;
the frame propagates its condval to the next frame iff `x` is false and a
propagated prior exists. -/
theorem make_else_if_behavior (f : AttributeFrame) (x : Bool) :
    (f.make_else_if x).condval
        = some (match f.prev_condval with
                | some p => !p && x
                | none => false)
    ∧ ((f.make_else_if x).no_propagate_condval = false
        ↔ (x = false ∧ f.prev_condval ≠ none))
    ∧ (AttributeFrame.propagate (f.make_else_if x)).prev_condval
        = (if (f.make_else_if x).no_propagate_condval then none
           else (f.make_else_if x).condval) := by
  cases hp : f.prev_condval <;> cases x <;>
    simp [AttributeFrame.make_else_if, AttributeFrame.propagate, hp]

/-- C5 counterexample: `Intent::Invoke` pushes the frame for the *last*
argument expression first — on a two-argument call the evaluation order is
reversed, not `e1` then `e2` as claimed. -/
theorem invoke_eval_order_counterexample :
    invokeOrder [10, 20] = [20, 10] ∧ invokeOrder [10, 20] ≠ [10, 20] := by
  constructor
  · rfl
  · decide

theorem invokeOrderAux_eq_take_reverse {α : Type} [Inhabited α]
    (l : List α) :
    ∀ r c, r + c = l.length → invokeOrderAux l r c = (l.take r).reverse := by
  intro r
  induction r with
  | zero => intro c _; simp [invokeOrderAux]
  | succ r ih =>
    intro c hc
    have hclt : c < l.length := by omega
    have hr : l.length - c - 1 = r := by omega
    have hrlt : r < l.length := by omega
    unfold invokeOrderAux invokeSchedule
    simp only [hclt, if_pos, hr]
    rw [ih (c + 1) (by omega)]
    have hget : l.getD r default = l.get ⟨r, hrlt⟩ := by
      rw [List.getD_eq_getElem?_getD, List.getElem?_eq_getElem hrlt]
      simp
    rw [hget]
    have htake : List.take (r + 1) l = List.take r l ++ [l[r]] := by
      rw [List.take_succ, List.getElem?_eq_getElem hrlt]
      rfl
    rw [htake, List.reverse_append]
    simp [List.get_eq_getElem]

/-- C5 (amended): the `Invoke` intent evaluates a call's argument
expressions right-to-left — one frame is pushed per argument, in the order
`ek` first through `e1` last (with `eval_count` incremented each time),
and only once `eval_count` reaches `k` does the intent stop scheduling and
pop the `k` results (now in positional order on the stack) together with
the function value to perform the call. -/
theorem invoke_eval_order_reversed {α : Type} [Inhabited α]
    (arg_exprs : List α) :
    invokeOrder arg_exprs = arg_exprs.reverse
    ∧ ∀ c, invokeSchedule arg_exprs c = none ↔ arg_exprs.length ≤ c := by
  constructor
  · rw [invokeOrder, invokeOrderAux_eq_take_reverse arg_exprs arg_exprs.length 0
        (by omega), List.take_length]
  · intro c
    unfold invokeSchedule
    split
    · next h => simp; omega
    · next h => simp; omega

/-- C1 counterexample: with a pending `Reverse` selector in the
resolver's attribute frame, block dispatch chooses element `10` by a
direct RNG draw, while the resolver's block state would choose `20`, and
no block state is pushed onto the resolver's block stack. -/
theorem block_dispatch_claim_counterexample :
    ¬ blockDispatchAgreesWithResolver (rngOf []) reverseSelResolver twoElemBlock := by
  unfold blockDispatchAgreesWithResolver
  decide

/-- C1 (amended): the `RST::Block` arm of the VM main loop does not go
through the resolver: `push_block_frame` leaves the resolver (block stack
and attribute frames) unchanged, chooses the element by a direct uniform
RNG draw — the same element for any two resolver states — and pushes that
element's frame (enqueueing `PrintLastOutput` per the print flags). -/
theorem block_dispatch_bypasses_resolver {α : Type} [Inhabited α]
    (rng : RantRng) (r₁ r₂ : Resolver α) (blk : Block α) (op : Bool)
    (fl : PrintFlag) (h : 0 < blk.elements.length) :
    (VM.push_block_frame rng r₁ blk op fl).resolver = r₁
    ∧ (VM.push_block_frame rng r₁ blk op fl).elem
        = (VM.push_block_frame rng r₂ blk op fl).elem
    ∧ rng.stream rng.pos % blk.elements.length < blk.elements.length
    ∧ (VM.push_block_frame rng r₁ blk op fl).elem
        = blk.elements.getD (rng.stream rng.pos % blk.elements.length) default := by
  refine ⟨rfl, rfl, Nat.mod_lt _ h, rfl⟩

/-- Witness for C1 (amended) on a concrete one-element block and two
distinct resolver states. -/
theorem block_dispatch_bypasses_resolver_witness :
    (VM.push_block_frame (rngOf []) reverseSelResolver twoElemBlock false
        PrintFlag.None).resolver = reverseSelResolver
    ∧ (VM.push_block_frame (rngOf []) reverseSelResolver twoElemBlock false
        PrintFlag.None).elem
        = (VM.push_block_frame (rngOf []) (Resolver.new Nat) twoElemBlock false
            PrintFlag.None).elem
    ∧ (rngOf []).stream (rngOf []).pos % twoElemBlock.elements.length
        < twoElemBlock.elements.length
    ∧ (VM.push_block_frame (rngOf []) reverseSelResolver twoElemBlock false
        PrintFlag.None).elem
        = twoElemBlock.elements.getD
            ((rngOf []).stream (rngOf []).pos % twoElemBlock.elements.length)
            default :=
  block_dispatch_bypasses_resolver (rngOf []) reverseSelResolver
    (Resolver.new Nat) twoElemBlock false PrintFlag.None (by decide)

/-- C4: with `prefer_function = true`, when the innermost binding of a
name is not callable, the lookup returns the first callable binding among
the enclosing bindings followed by the global binding (function
trickle-down); in particular an outer function wins over an inner
non-callable. -/
theorem trickle_down_lookup (sc : ScopeLayers) (ctx : Globals) (id : String)
    (v f : RantValue) (rest : List RantValue)
    (h1 : sc.get_all id = v :: rest)
    (h2 : v.is_callable = false)
    (h3 : (rest ++ (match ctx.get_global_var id with
                    | some g => [g]
                    | none => [])).find? (fun w => w.is_callable) = some f) :
    CallStack.get_var_value sc ctx id .Local true = .ok f := by
  unfold CallStack.get_var_value
  rw [h1]
  simp only [h2, Bool.false_eq_true, if_false, if_true]
  rw [List.find?_append] at h3
  cases hr : rest.find? (fun w => w.is_callable) with
  | some fr =>
    rw [hr] at h3
    simp at h3
    simp [h3]
  | none =>
    rw [hr] at h3
    simp at h3
    cases hg : ctx.get_global_var id with
    | none => rw [hg] at h3; simp at h3
    | some g =>
      rw [hg] at h3
      simp at h3
      obtain ⟨hgc, hgf⟩ := h3
      subst hgf
      simp [Option.filter, hgc]

/-- Witness for C4: the inner scope binds `f` to the integer `1`, the
outer scope binds it to a function; the lookup returns the outer
function. -/
theorem trickle_down_lookup_witness :
    CallStack.get_var_value
        ⟨[[("f", RantValue.Integer 1)], [("f", RantValue.Function varStarFunc)]]⟩
        ⟨[]⟩ "f" .Local true
      = .ok (RantValue.Function varStarFunc) :=
  trickle_down_lookup
    ⟨[[("f", RantValue.Integer 1)], [("f", RantValue.Function varStarFunc)]]⟩
    ⟨[]⟩ "f" (RantValue.Integer 1) (RantValue.Function varStarFunc)
    [RantValue.Function varStarFunc] rfl rfl rfl

theorem bindParams_eq (ps : List Parameter) (as : List RantValue) :
    bindParams ps as = (List.range ps.length).map (fun i =>
      ((ps.getD i ⟨"", .Required⟩).name, as.getD i RantValue.Empty)) := by
  induction ps generalizing as with
  | nil => simp [bindParams]
  | cons p ps ih =>
    cases as with
    | nil =>
      rw [bindParams, ih [], List.length_cons, List.range_succ_eq_map,
        List.map_cons, List.map_map]
      simp [Function.comp]
    | cons a as =>
      rw [bindParams, ih as, List.length_cons, List.range_succ_eq_map,
        List.map_cons, List.map_map]
      simp [Function.comp]

theorem condensed_getD (args : List RantValue) (v i : Nat)
    (hv : v ≤ args.length) :
    ((args.take v) ++ [RantValue.List (args.drop v)]).getD i RantValue.Empty
      = (if i < v then args.getD i RantValue.Empty
         else if i = v then RantValue.List (args.drop v)
         else RantValue.Empty) := by
  have hlen : (args.take v).length = v := by
    rw [List.length_take]
    omega
  rcases lt_trichotomy i v with hlt | heq | hgt
  · rw [if_pos hlt, List.getD_append _ _ _ _ (by omega)]
    rw [List.getD_eq_getElem?_getD, List.getD_eq_getElem?_getD,
      List.getElem?_take_of_lt hlt]
  · subst heq
    rw [if_neg (by omega), if_pos rfl,
      List.getD_append_right _ _ _ _ (by omega), hlen]
    simp
  · rw [if_neg (by omega), if_neg (by omega), List.getD_eq_default]
    simp only [List.length_append, hlen, List.length_cons, List.length_nil]
    omega

/-- C2 counterexample: calling a user function whose single parameter is
zero-or-more variadic with one argument binds the parameter to a
one-element *list* containing the argument, not to the argument itself —
so the first `argc` values are not bound positionally for variadic
functions. -/
theorem invoke_binding_claim_counterexample :
    invokeCall varStarFunc [RantValue.Integer 42]
        = .Ok (.UserCall [("x", RantValue.List [RantValue.Integer 42])])
      ∧ RantValue.List [RantValue.Integer 42] ≠ RantValue.Integer 42 :=
  ⟨rfl, fun h => RantValue.noConfusion h⟩

/-- C2 (amended): when the `Invoke` intent calls a non-native function
with `argc` arguments, an `ArgumentMismatch` error is raised (and the
call does not proceed) exactly when the function is non-variadic with
`argc` outside `[min_arg_count, params.len()]` or variadic with
`argc < min_arg_count`; past validation, a variadic call with
`argc < vararg_start_index` (reachable when optional parameters precede
the variadic one) panics in `Vec::drain` instead of binding anything;
otherwise, for a non-variadic function the first `argc` values are bound
positionally and every later parameter gets `Empty`, while for a variadic
function the first `vararg_start_index` values are bound positionally,
the variadic parameter receives the remaining arguments condensed into a
single list, and any later parameter gets `Empty`. -/
theorem invoke_validation_and_binding (f : RantFunction) (args : List RantValue)
    (h1 : f.body = .User) :
    invokeCall f args =
      if (f.is_variadic = false
            ∧ (args.length < f.min_arg_count ∨ args.length > f.params.length))
          ∨ (f.is_variadic = true ∧ args.length < f.min_arg_count) then
        .Err .ArgumentMismatch
      else if f.is_variadic = true ∧ args.length < f.vararg_start_index then
        .Panic
      else
        .Ok (.UserCall ((List.range f.params.length).map (fun i =>
          ((f.params.getD i ⟨"", .Required⟩).name,
            if f.is_variadic then
              if i < f.vararg_start_index then args.getD i RantValue.Empty
              else if i = f.vararg_start_index then
                RantValue.List (args.drop f.vararg_start_index)
              else RantValue.Empty
            else args.getD i RantValue.Empty)))) := by
  have hnat : f.is_native = false := by
    unfold RantFunction.is_native
    simp [h1]
  cases hvar : f.is_variadic with
  | false =>
    by_cases hc : args.length < f.min_arg_count ∨ args.length > f.params.length
    · rw [if_pos (by tauto)]
      unfold invokeCall
      rw [hvar]
      simp only [Bool.false_eq_true, if_false]
      rw [if_pos hc]
    · rw [if_neg (by tauto), if_neg (by simp [hvar])]
      unfold invokeCall
      rw [hvar]
      simp only [Bool.false_eq_true, if_false]
      rw [if_neg hc, h1, bindParams_eq]
  | true =>
    by_cases hc : args.length < f.min_arg_count
    · rw [if_pos (by tauto)]
      unfold invokeCall
      rw [hvar]
      simp only [if_true]
      rw [if_pos hc]
    · by_cases hva : f.vararg_start_index ≤ args.length
      · rw [if_neg (by tauto), if_neg (fun hp => absurd hp.2 (by omega))]
        have hd : drainCondense args f.vararg_start_index
            = some (args.take f.vararg_start_index
                ++ [RantValue.List (args.drop f.vararg_start_index)]) := by
          unfold drainCondense
          rw [if_pos hva]
        unfold invokeCall
        rw [hvar]
        simp only [if_true]
        rw [if_neg hc, hnat]
        simp only [Bool.not_false, if_true, hd, h1]
        simp only [InvokeResult.Ok.injEq, InvokeOutcome.UserCall.injEq]
        rw [bindParams_eq]
        apply List.map_congr_left
        intro i _
        rw [condensed_getD args f.vararg_start_index i hva]
      · rw [if_neg (by tauto), if_pos ⟨rfl, by omega⟩]
        have hd : drainCondense args f.vararg_start_index = none := by
          unfold drainCondense
          rw [if_neg (by omega)]
        unfold invokeCall
        rw [hvar]
        simp only [if_true]
        rw [if_neg hc, hnat]
        simp only [Bool.not_false, if_true, hd]

/-- Witness for C2 (amended): calling a 2-parameter non-variadic user
function with one argument binds `a` positionally and fills `b` with
`Empty`, and calling a `required, optional, variadic` user function with
one argument reaches the `Vec::drain` panic. -/
theorem invoke_validation_and_binding_witness :
    (invokeCall reqOptFunc [RantValue.Integer 7] =
      if (reqOptFunc.is_variadic = false
            ∧ ([RantValue.Integer 7].length < reqOptFunc.min_arg_count
                ∨ [RantValue.Integer 7].length > reqOptFunc.params.length))
          ∨ (reqOptFunc.is_variadic = true
              ∧ [RantValue.Integer 7].length < reqOptFunc.min_arg_count) then
        .Err .ArgumentMismatch
      else if reqOptFunc.is_variadic = true
          ∧ [RantValue.Integer 7].length < reqOptFunc.vararg_start_index then
        .Panic
      else
        .Ok (.UserCall ((List.range reqOptFunc.params.length).map (fun i =>
          ((reqOptFunc.params.getD i ⟨"", .Required⟩).name,
            if reqOptFunc.is_variadic then
              if i < reqOptFunc.vararg_start_index then
                [RantValue.Integer 7].getD i RantValue.Empty
              else if i = reqOptFunc.vararg_start_index then
                RantValue.List ([RantValue.Integer 7].drop reqOptFunc.vararg_start_index)
              else RantValue.Empty
            else [RantValue.Integer 7].getD i RantValue.Empty)))))
    ∧ (invokeCall optBeforeVarFunc [RantValue.Integer 42] =
      if (optBeforeVarFunc.is_variadic = false
            ∧ ([RantValue.Integer 42].length < optBeforeVarFunc.min_arg_count
                ∨ [RantValue.Integer 42].length > optBeforeVarFunc.params.length))
          ∨ (optBeforeVarFunc.is_variadic = true
              ∧ [RantValue.Integer 42].length < optBeforeVarFunc.min_arg_count) then
        .Err .ArgumentMismatch
      else if optBeforeVarFunc.is_variadic = true
          ∧ [RantValue.Integer 42].length < optBeforeVarFunc.vararg_start_index then
        .Panic
      else
        .Ok (.UserCall ((List.range optBeforeVarFunc.params.length).map (fun i =>
          ((optBeforeVarFunc.params.getD i ⟨"", .Required⟩).name,
            if optBeforeVarFunc.is_variadic then
              if i < optBeforeVarFunc.vararg_start_index then
                [RantValue.Integer 42].getD i RantValue.Empty
              else if i = optBeforeVarFunc.vararg_start_index then
                RantValue.List
                  ([RantValue.Integer 42].drop optBeforeVarFunc.vararg_start_index)
              else RantValue.Empty
            else [RantValue.Integer 42].getD i RantValue.Empty))))) :=
  ⟨invoke_validation_and_binding reqOptFunc [RantValue.Integer 7] rfl,
   invoke_validation_and_binding optBeforeVarFunc [RantValue.Integer 42] rfl⟩

theorem cons_set_perm {α : Type} :
    ∀ (xs : List α) (k : Nat) (b x : α), xs[k]? = some b →
      (b :: xs.set k x).Perm (x :: xs) := by
  intro xs
  induction xs with
  | nil => intro k b x h; simp at h
  | cons y ys ih =>
    intro k b x h
    cases k with
    | zero =>
      have hb : y = b := by simpa using h
      subst hb
      simpa using List.Perm.swap x y ys
    | succ k =>
      have h' : ys[k]? = some b := by simpa using h
      have step1 : ((y :: ys).set (k + 1) x) = y :: ys.set k x := by simp
      rw [step1]
      exact ((List.Perm.swap y b _).trans ((ih k b x h').cons y)).trans
        (List.Perm.swap x y ys)

theorem swap_set_perm {α : Type} :
    ∀ (l : List α) (i j : Nat) (a b : α), l[i]? = some a → l[j]? = some b →
      ((l.set i b).set j a).Perm l := by
  intro l
  induction l with
  | nil => intro i j a b hi _; simp at hi
  | cons x xs ih =>
    intro i j a b hi hj
    cases i with
    | zero =>
      have hxa : x = a := by simpa using hi
      subst hxa
      cases j with
      | zero =>
        have hxb : x = b := by simpa using hj
        subst hxb
        simp
      | succ j =>
        have hj' : xs[j]? = some b := by simpa using hj
        simpa using cons_set_perm xs j b x hj'
    | succ i =>
      have hi' : xs[i]? = some a := by simpa using hi
      cases j with
      | zero =>
        have hxb : x = b := by simpa using hj
        subst hxb
        simpa using cons_set_perm xs i a x hi'
      | succ j =>
        have hj' : xs[j]? = some b := by simpa using hj
        simpa using (ih i j a b hi' hj').cons x

theorem swapIdx_perm (l : List Nat) (i j : Nat) : (swapIdx l i j).Perm l := by
  unfold swapIdx
  cases hi : l.get? i with
  | none => exact List.Perm.refl l
  | some a =>
    cases hj : l.get? j with
    | none => exact List.Perm.refl l
    | some b =>
      rw [List.get?_eq_getElem?] at hi hj
      exact swap_set_perm l i j a b hi hj

theorem fyFold_perm (n : Nat) (t : List Nat) :
    ∀ (is : List Nat) (acc : List Nat × RantRng), acc.1.Perm t →
      ((is.foldl (fun (acc : List Nat × RantRng) i =>
          let (j, r) := acc.2.next_usize n
          (swapIdx acc.1 i j, r)) acc).1).Perm t := by
  intro is
  induction is with
  | nil => intro acc h; exact h
  | cons i is ih =>
    intro acc h
    exact ih _ ((swapIdx_perm acc.1 i _).trans h)

theorem shuffle_table_perm (s : Selector) (rng : RantRng)
    (h : s.jump_table = [] ∨ s.jump_table.Perm (List.range s.count)) :
    ((s.shuffle rng).1.jump_table).Perm (List.range s.count) := by
  unfold Selector.shuffle
  simp only
  apply fyFold_perm
  by_cases he : s.jump_table.isEmpty
  · simp [he]
  · rw [if_neg he]
    cases h with
    | inl h0 => rw [h0] at he; simp at he
    | inr hp => exact hp

theorem shuffle_preserves_shape (s : Selector) (rng : RantRng) :
    (s.shuffle rng).1.mode = s.mode ∧ (s.shuffle rng).1.count = s.count
      ∧ (s.shuffle rng).1.index = s.index := by
  unfold Selector.shuffle
  exact ⟨rfl, rfl, rfl⟩

theorem getD_lt_of_perm (t : List Nat) (n i : Nat)
    (h : t.Perm (List.range n)) (hn : 0 < n) : t.getD i 0 < n := by
  rw [List.getD_eq_getElem?_getD]
  cases hx : t[i]? with
  | none => simpa using hn
  | some x =>
    have hmem : x ∈ t := List.getElem?_mem hx
    have : x ∈ List.range n := h.mem_iff.mp hmem
    simpa using List.mem_range.mp this

theorem getD_lt_of_table_inv (t : List Nat) (n i : Nat)
    (h : t = [] ∨ t.Perm (List.range n)) (hn : 0 < n) : t.getD i 0 < n := by
  cases h with
  | inl h0 => subst h0; simpa using hn
  | inr hp => exact getD_lt_of_perm t n i hp hn

theorem ite_idx_lt (c : Prop) [Decidable c] (a b n : Nat) (ha : a < n)
    (hb : b < n) : (if c then a else b) < n := by
  split <;> assumption

theorem selectCore_total (n : Nat) (s : Selector) (rng : RantRng)
    (hn : 0 < n) (hinv : SelInv n s) :
    ∃ i s' rng', s.selectCore n rng = .ok (i, s', rng') ∧ i < n ∧ SelInv n s' := by
  obtain ⟨mode, index, count, parity, table⟩ := s
  obtain ⟨hc, hi, ht⟩ := hinv
  simp only at hc hi ht
  subst hc
  cases mode with
  | Random =>
    exact ⟨index, _, _, rfl, hi, rfl, Nat.mod_lt _ hn, ht⟩
  | One =>
    exact ⟨index, _, _, rfl, hi, rfl, hi, ht⟩
  | Forward =>
    exact ⟨index, _, _, rfl, hi, rfl, Nat.mod_lt _ hn, ht⟩
  | ForwardClamp =>
    exact ⟨index, _, _, rfl, hi, rfl,
      lt_of_le_of_lt (min_le_right _ _) (Nat.sub_lt hn Nat.one_pos), ht⟩
  | Reverse =>
    refine ⟨index, _, _, rfl, hi, rfl, ?_, ht⟩
    show (if index = 0 then count else index) - 1 < count
    split <;> omega
  | ReverseClamp =>
    exact ⟨index, _, _, rfl, hi, rfl,
      lt_of_le_of_lt (Nat.sub_le index 1) hi, ht⟩
  | Deck =>
    by_cases hge : index ≥ count - 1
    · refine ⟨table.getD index 0,
        { (Selector.shuffle ⟨.Deck, index, count, parity, table⟩ rng).1
            with index := 0 },
        (Selector.shuffle ⟨.Deck, index, count, parity, table⟩ rng).2,
        ?_, getD_lt_of_table_inv table count index ht hn,
        (shuffle_preserves_shape ⟨.Deck, index, count, parity, table⟩ rng).2.1,
        hn,
        Or.inr (shuffle_table_perm ⟨.Deck, index, count, parity, table⟩ rng ht)⟩
      show (if index ≥ count - 1 then _ else _) = _
      rw [if_pos hge]
      rfl
    · refine ⟨table.getD index 0,
        ⟨.Deck, index + 1, count, parity, table⟩, rng, ?_,
        getD_lt_of_table_inv table count index ht hn, rfl, ?_, ht⟩
      · show (if index ≥ count - 1 then _ else _) = _
        rw [if_neg hge]
      · show index + 1 < count
        omega
  | DeckLoop =>
    exact ⟨_, _, _, rfl, getD_lt_of_table_inv table count index ht hn, rfl,
      Nat.mod_lt _ hn, ht⟩
  | DeckClamp =>
    exact ⟨_, _, _, rfl, getD_lt_of_table_inv table count index ht hn, rfl,
      lt_of_le_of_lt (min_le_right _ _) (Nat.sub_lt hn Nat.one_pos), ht⟩
  | Ping =>
    refine ⟨index, _, _, rfl, hi, rfl,
      ite_idx_lt _ (index - 1) ((index + 1) % count) count
        (lt_of_le_of_lt (Nat.sub_le index 1) hi) (Nat.mod_lt _ hn), ht⟩
  | Pong =>
    refine ⟨index, _, _, rfl, hi, rfl,
      ite_idx_lt _ ((index + 1) % count) (index - 1) count
        (Nat.mod_lt _ hn) (lt_of_le_of_lt (Nat.sub_le index 1) hi), ht⟩
  | NoDouble =>
    by_cases h1 : count > 1
    · refine ⟨index,
        ⟨.NoDouble, (index + 1 + rng.stream rng.pos % (count - 1)) % count,
          count, parity, table⟩,
        ⟨rng.stream, rng.pos + 1⟩, ?_, hi, rfl, Nat.mod_lt _ hn, ht⟩
      show (if count > 1 then _ else _) = _
      rw [if_pos h1]
    · refine ⟨index, ⟨.NoDouble, 0, count, parity, table⟩, rng, ?_, hi, rfl,
        hn, ht⟩
      show (if count > 1 then _ else _) = _
      rw [if_neg h1]

theorem init_new_total (mode : SelectorMode) (rng : RantRng) (n : Nat)
    (hn : 0 < n) :
    ∃ s₁ rng₁, (Selector.new mode).init rng n = .ok (s₁, rng₁) ∧ SelInv n s₁ := by
  unfold Selector.new Selector.init
  rw [if_neg (by omega)]
  cases mode with
  | Random => exact ⟨_, _, rfl, rfl, Nat.mod_lt _ hn, Or.inl rfl⟩
  | One => exact ⟨_, _, rfl, rfl, Nat.mod_lt _ hn, Or.inl rfl⟩
  | Forward => exact ⟨_, _, rfl, rfl, hn, Or.inl rfl⟩
  | ForwardClamp => exact ⟨_, _, rfl, rfl, hn, Or.inl rfl⟩
  | Reverse => exact ⟨_, _, rfl, rfl, Nat.sub_lt hn Nat.one_pos, Or.inl rfl⟩
  | ReverseClamp => exact ⟨_, _, rfl, rfl, Nat.sub_lt hn Nat.one_pos, Or.inl rfl⟩
  | Deck =>
    refine ⟨_, _, rfl, (shuffle_preserves_shape _ rng).2.1, ?_, Or.inr ?_⟩
    · exact hn
    · exact shuffle_table_perm ⟨.Deck, 0, n, false, []⟩ rng (Or.inl rfl)
  | DeckLoop =>
    refine ⟨_, _, rfl, (shuffle_preserves_shape _ rng).2.1, ?_, Or.inr ?_⟩
    · exact hn
    · exact shuffle_table_perm ⟨.DeckLoop, 0, n, false, []⟩ rng (Or.inl rfl)
  | DeckClamp =>
    refine ⟨_, _, rfl, (shuffle_preserves_shape _ rng).2.1, ?_, Or.inr ?_⟩
    · exact hn
    · exact shuffle_table_perm ⟨.DeckClamp, 0, n, false, []⟩ rng (Or.inl rfl)
  | Ping => exact ⟨_, _, rfl, rfl, hn, Or.inl rfl⟩
  | Pong => exact ⟨_, _, rfl, rfl, Nat.sub_lt hn Nat.one_pos, Or.inl rfl⟩
  | NoDouble => exact ⟨_, _, rfl, rfl, Nat.mod_lt _ hn, Or.inl rfl⟩

/-- C3: for every selector mode and element count `n ≥ 1`, `select`
succeeds both on first use (initializing with `n`) and on any later call
with the same `n` from a valid state, and the returned index lies in
`[0, n)` (with the resulting state valid again). -/
theorem selector_totality (mode : SelectorMode) (n : Nat) (s : Selector)
    (rng : RantRng) (hn : 0 < n)
    (hs : s = Selector.new mode ∨ SelInv n s) :
    ∃ i s' rng', s.select n rng = .ok (i, s', rng') ∧ i < n ∧ SelInv n s' := by
  cases hs with
  | inl h =>
    subst h
    have hini : (Selector.new mode).is_initialized = false := by
      simp [Selector.new, Selector.is_initialized]
    obtain ⟨s₁, rng₁, heq, hinv⟩ := init_new_total mode rng n hn
    obtain ⟨i, s', rng', hcore, hlt, hinv'⟩ := selectCore_total n s₁ rng₁ hn hinv
    refine ⟨i, s', rng', ?_, hlt, hinv'⟩
    unfold Selector.select
    rw [hini]
    simp only [Bool.not_false, if_true, heq]
    simpa using hcore
  | inr hinv =>
    have hini : s.is_initialized = true := by
      have := hinv.1
      simp [Selector.is_initialized]
      omega
    obtain ⟨i, s', rng', hcore, hlt, hinv'⟩ := selectCore_total n s rng hn hinv
    refine ⟨i, s', rng', ?_, hlt, hinv'⟩
    have hc := hinv.1
    unfold Selector.select
    rw [hini]
    simp only [Bool.not_true, if_false]
    rw [if_neg (by omega : ¬ n ≠ s.count)]
    simpa using hcore

/-- Witness for C3: a fresh `Forward` selector over one element returns an
index below 1. -/
theorem selector_totality_witness :
    ∃ i s' rng', (Selector.new .Forward).select 1 (rngOf []) = .ok (i, s', rng')
      ∧ i < 1 ∧ SelInv 1 s' :=
  selector_totality .Forward 1 (Selector.new .Forward) (rngOf [])
    (by omega) (Or.inl rfl)

theorem select_eq_core_of_count (s : Selector) (n : Nat) (rng : RantRng)
    (hc : s.count = n) (hn : 0 < n) :
    s.select n rng = s.selectCore n rng := by
  have hini : s.is_initialized = true := by
    simp [Selector.is_initialized]
    omega
  unfold Selector.select
  rw [hini]
  simp only [Bool.not_true, if_false]
  rw [if_neg (by omega : ¬ n ≠ s.count)]
  rfl

theorem deck_pass (n : Nat) (hn : 0 < n) :
    ∀ k, 1 ≤ k → ∀ (s : Selector) (rng : RantRng),
      s.mode = .Deck → s.count = n → s.index + k = n →
      s.jump_table.Perm (List.range n) →
      ∃ s' rng', selectRun n k s rng
          = .ok (s.jump_table.drop s.index, s', rng')
        ∧ s'.mode = .Deck ∧ s'.count = n ∧ s'.index = 0
        ∧ s'.jump_table.Perm (List.range n) := by
  intro k
  induction k with
  | zero => intro h; omega
  | succ k ih =>
    intro _ s rng hm hc hik ht
    have hlen : s.jump_table.length = n := by
      rw [ht.length_eq, List.length_range]
    have hidx : s.index < n := by omega
    obtain ⟨mode, index, count, parity, table⟩ := s
    simp only at hm hc hik ht hlen hidx
    subst hm
    subst hc
    rw [selectRun, select_eq_core_of_count _ _ _ rfl hn]
    have hgetd : table.getD index 0 = table[index] := by
      rw [List.getD_eq_getElem?_getD, List.getElem?_eq_getElem (by omega)]
      rfl
    by_cases hk : k = 0
    · subst hk
      have hge : index ≥ count - 1 := by omega
      have hcore : Selector.selectCore ⟨.Deck, index, count, parity, table⟩ count rng
          = .ok (table.getD index 0,
              { (Selector.shuffle ⟨.Deck, index, count, parity, table⟩ rng).1
                  with index := 0 },
              (Selector.shuffle ⟨.Deck, index, count, parity, table⟩ rng).2) := by
        show (if index ≥ count - 1 then _ else _) = _
        rw [if_pos hge]
        rfl
      rw [hcore]
      dsimp only [selectRun]
      refine ⟨{ (Selector.shuffle ⟨.Deck, index, count, parity, table⟩ rng).1
          with index := 0 },
        (Selector.shuffle ⟨.Deck, index, count, parity, table⟩ rng).2,
        ?_, rfl, (shuffle_preserves_shape _ rng).2.1, rfl, ?_⟩
      · have hdrop : table.drop index = [table[index]] := by
          rw [List.drop_eq_getElem_cons (by omega),
            List.drop_eq_nil_of_le (by omega)]
        rw [hdrop, hgetd]
      · exact shuffle_table_perm ⟨.Deck, index, count, parity, table⟩ rng (Or.inr ht)
    · have hlt' : ¬ index ≥ count - 1 := by omega
      have hcore : Selector.selectCore ⟨.Deck, index, count, parity, table⟩ count rng
          = .ok (table.getD index 0,
              ⟨.Deck, index + 1, count, parity, table⟩, rng) := by
        show (if index ≥ count - 1 then _ else _) = _
        rw [if_neg hlt']
      rw [hcore]
      dsimp only
      obtain ⟨s', rng', hrun, hm', hc', hi', ht'⟩ :=
        ih (by omega) ⟨.Deck, index + 1, count, parity, table⟩ rng rfl rfl
          (by simp only; omega) ht
      dsimp only at hrun
      rw [hrun]
      refine ⟨s', rng', ?_, hm', hc', hi', ht'⟩
      have hdrop : table.drop index
          = table[index] :: table.drop (index + 1) :=
        List.drop_eq_getElem_cons (by omega)
      rw [hdrop, hgetd]

/-- C6 counterexample: with `n = 2` and an RNG stream making the second
shuffled pass start with the same index the first pass ended with, the
three calls return `[0, 1, 1]` — so the two consecutive calls 2 and 3
repeat index 1 before index 0 reappears, refuting the claim for windows
that straddle a reshuffle. -/
theorem deck_fairness_claim_counterexample :
    runOuts 2 3 (Selector.new .Deck) (rngOf [0, 1, 1, 1]) = [0, 1, 1]
      ∧ ¬ ((runOuts 2 3 (Selector.new .Deck) (rngOf [0, 1, 1, 1])).drop 1).Perm
          (List.range 2) := by
  constructor
  · rfl
  · decide

/-- C6 (amended): Deck fairness holds for reshuffle-aligned windows: from
any state at the start of a pass (position 0, with a jump table that
permutes `[0, n)`, which is how `Deck` initializes), the next `n`
consecutive calls return every index in `[0, n)` exactly once, and the
selector is again at the start of a pass with a permuted table, so every
aligned pass of `n` consecutive calls enumerates `[0, n)` exactly once. -/
theorem deck_pass_fairness (n : Nat) (s : Selector) (rng : RantRng)
    (hm : s.mode = .Deck) (hc : s.count = n) (hi : s.index = 0)
    (ht : s.jump_table.Perm (List.range n)) (hn : 0 < n) :
    ∃ outs s' rng', selectRun n n s rng = .ok (outs, s', rng')
      ∧ outs.Perm (List.range n)
      ∧ s'.mode = .Deck ∧ s'.count = n ∧ s'.index = 0
      ∧ s'.jump_table.Perm (List.range n) := by
  obtain ⟨s', rng', heq, h1, h2, h3, h4⟩ :=
    deck_pass n hn n hn s rng hm hc (by omega) ht
  refine ⟨s.jump_table.drop s.index, s', rng', heq, ?_, h1, h2, h3, h4⟩
  rw [hi, List.drop_zero]
  exact ht

/-- Witness for C6 (amended): a freshly initialized 2-element deck with
the identity jump table enumerates both indices in its first pass. -/
theorem deck_pass_fairness_witness :
    ∃ outs s' rng',
      selectRun 2 2 ⟨.Deck, 0, 2, false, [0, 1]⟩ (rngOf []) = .ok (outs, s', rng')
      ∧ outs.Perm (List.range 2)
      ∧ s'.mode = .Deck ∧ s'.count = 2 ∧ s'.index = 0
      ∧ s'.jump_table.Perm (List.range 2) :=
  deck_pass_fairness 2 ⟨.Deck, 0, 2, false, [0, 1]⟩ (rngOf []) rfl rfl rfl
    (by decide) (by omega)

end Rant
